import Mathlib

/-!
Verification development for the change-triggered commit pipeline of a
documentation knowledge-base template.  The embedding covers the two scripts
that carry the pipeline:

* `watch_changes.py` — the `ChangeHandler` debounce state machine
  (fields `last_modified`, `timer_running`; methods `on_any_event`,
  `_start_timer`, `_trigger_commit`), modelled as a discrete-time step
  function over a handler state, with time in whole polling ticks.

* `auto_commit.py` — the `run_command` / `get_git_status` /
  `commit_changes` / `push_changes` helpers and the `--commit-only` and
  `auto_commit_changes` drivers, modelled over an environment mapping each
  shell command line to the exit code, stdout and stderr of its invocation.
  Each modelled call records the commands it ran and the log lines it
  emitted, so that theorems can speak about which external git operations a
  run performs.
-/

/-! ## Shell environment and `run_command` (auto_commit.py) -/

/-- Outcome of one external command invocation: exit code, captured
standard output and captured standard error, as seen by
`subprocess.run(..., capture_output=True, text=True)`. -/
structure CmdResult where
  exitCode : Int
  stdout : String
  stderr : String
deriving Repr, DecidableEq

/-- The shell environment: what each command line returns when invoked. -/
def Env : Type := String → CmdResult

/-- Result of a modelled fragment of `auto_commit.py`: the returned value,
the list of shell commands actually invoked (in order), and the log lines
emitted (in order). -/
structure ExecOut (α : Type) where
  val : α
  ran : List String
  logs : List String
deriving Repr

/-- `subprocess.run(command, shell=True, check=True, capture_output=True)`:
returns stdout on exit code 0, raises `CalledProcessError` (carrying the
command and its stderr) otherwise. -/
def subprocessRun (env : Env) (c : String) : Except (String × String) String :=
  let r := env c
  if r.exitCode = 0 then Except.ok r.stdout else Except.error (c, r.stderr)

/-- A whitespace character in the sense of Python's `str.strip()`
(restricted to the ASCII whitespace set). -/
def isSpaceChar (c : Char) : Bool :=
  c == ' ' || c == '\t' || c == '\n' || c == '\r' || c == '\x0b' || c == '\x0c'

/-- Python's `str.strip()`: drop leading and trailing whitespace. -/
def pyStrip (s : String) : String :=
  String.mk (((s.data.dropWhile isSpaceChar).reverse.dropWhile isSpaceChar).reverse)

/-- `run_command` of auto_commit.py: runs the command; on success returns
the stripped stdout, on `CalledProcessError` logs the command and the
captured stderr and returns `None`. -/
def run_command (env : Env) (c : String) : ExecOut (Option String) :=
  match subprocessRun env c with
  | Except.ok out => ⟨some (pyStrip out), [c], []⟩
  | Except.error e => ⟨none, [c], ["Command failed: " ++ e.1, "Error: " ++ e.2]⟩

/-- The status command issued by `get_git_status`. -/
def statusCmd : String := "git status --porcelain"

/-- The staging command issued by `commit_changes`. -/
def stageCmd : String := "git add --all"

/-- The commit command issued by `commit_changes` for message `m`. -/
def commitCmdFor (m : String) : String := "git commit -m \"" ++ m ++ "\""

/-- The push command issued by `push_changes`. -/
def pushCmd : String := "git push"

/-- `get_git_status` of auto_commit.py. -/
def get_git_status (env : Env) : ExecOut (Option String) :=
  run_command env statusCmd

/-- The automatically generated commit message, from the current
timestamp, used when `commit_changes` receives no message. -/
def defaultMessage (timestamp : String) : String :=
  "Auto-commit: Update documentation at " ++ timestamp

/-- `commit_changes` of auto_commit.py: stage all changes, then commit;
returns `False` as soon as either `run_command` call returns `None`. -/
def commit_changes (env : Env) (message : Option String) (timestamp : String) :
    ExecOut Bool :=
  let msg := message.getD (defaultMessage timestamp)
  let stage := run_command env stageCmd
  match stage.val with
  | none => ⟨false, stage.ran, stage.logs⟩
  | some _ =>
    let commit := run_command env (commitCmdFor msg)
    match commit.val with
    | none => ⟨false, stage.ran ++ commit.ran, stage.logs ++ commit.logs⟩
    | some _ =>
      ⟨true, stage.ran ++ commit.ran,
        stage.logs ++ commit.logs ++ ["Changes committed: " ++ msg]⟩

/-- `push_changes` of auto_commit.py. -/
def push_changes (env : Env) : ExecOut Bool :=
  let push := run_command env pushCmd
  match push.val with
  | none => ⟨false, push.ran, push.logs ++ ["Failed to push changes"]⟩
  | some _ => ⟨true, push.ran, push.logs ++ ["Changes pushed to remote repository"]⟩

/-- Python truthiness of the status value: `None` and the empty string are
falsy, any non-empty string is truthy. -/
def truthy : Option String → Bool
  | none => false
  | some s => !(s == "")

/-- The `--commit-only` branch of auto_commit.py's `__main__`: check the
status once; if truthy, commit and (on success) push, otherwise report
that there are no changes. -/
def commitOnly (env : Env) (timestamp : String) : ExecOut Unit :=
  let status := get_git_status env
  if truthy status.val then
    let c := commit_changes env none timestamp
    if c.val then
      let p := push_changes env
      ⟨(), status.ran ++ c.ran ++ p.ran, status.logs ++ c.logs ++ p.logs⟩
    else
      ⟨(), status.ran ++ c.ran,
        status.logs ++ c.logs ++ ["Failed to commit changes"]⟩
  else
    ⟨(), status.ran, status.logs ++ ["No changes to commit"]⟩

/-- One iteration of the `auto_commit_changes` monitoring loop: check the
status; if truthy, log, commit and (on success) push. -/
def autoCommitIteration (env : Env) (timestamp : String) : ExecOut Unit :=
  let status := get_git_status env
  if truthy status.val then
    let c := commit_changes env none timestamp
    if c.val then
      let p := push_changes env
      ⟨(), status.ran ++ c.ran ++ p.ran,
        status.logs ++ ["Changes detected"] ++ c.logs ++ p.logs⟩
    else
      ⟨(), status.ran ++ c.ran, status.logs ++ ["Changes detected"] ++ c.logs⟩
  else
    ⟨(), status.ran, status.logs ++ ["No changes detected"]⟩

/-- The first `n` iterations of the monitoring loop; the environment and
the timestamp may differ between iterations (the repository evolves). -/
def autoCommitLoop (envs : Nat → Env) (timestamps : Nat → String) : Nat → ExecOut Unit
  | 0 => ⟨(), [], []⟩
  | n + 1 =>
    let prev := autoCommitLoop envs timestamps n
    let it := autoCommitIteration (envs n) (timestamps n)
    ⟨(), prev.ran ++ it.ran, prev.logs ++ it.logs⟩

/-- `auto_commit_changes` of auto_commit.py, truncated to its first `n`
loop iterations: logs the monitoring banner (the only place the watched
path appears), then runs the loop. -/
def auto_commit_changes (path : String) (interval : Nat) (envs : Nat → Env)
    (timestamps : Nat → String) (n : Nat) : ExecOut Unit :=
  let loop := autoCommitLoop envs timestamps n
  ⟨(), loop.ran,
    ("Monitoring " ++ path ++ " for changes every " ++ toString interval ++ " seconds")
      :: loop.logs⟩

/-- Replay a command trace against an abstract repository state, given an
interpretation of each command as a state transformer. -/
def execTrace {R : Type} (step : String → R → R) (repo : R) (tr : List String) : R :=
  tr.foldl (fun r c => step c r) repo

/-! ## The debounce watcher (watch_changes.py) -/

/-- `os.path.basename`: the part of the path after the last separator. -/
def basename (p : String) : String :=
  String.mk ((p.data.reverse.takeWhile (fun c => !(c == '/'))).reverse)

/-- Python's `name.startswith('.')`: whether the first character is a dot. -/
def startsWithDot (s : String) : Bool :=
  match s.data with
  | [] => false
  | c :: _ => c == '.'

/-- A filesystem event as delivered to `on_any_event`. -/
structure FSEvent where
  srcPath : String
  eventType : String
  isDirectory : Bool
deriving Repr, DecidableEq

/-- The mutable state of `ChangeHandler`: the time of the last qualifying
change and whether a debounce wait (`_start_timer` loop) is running.
Time is measured in whole polling ticks. -/
structure HandlerState where
  lastModified : Nat
  timerRunning : Bool
deriving Repr, DecidableEq

/-- The handler state at watcher start: `last_modified` is the
construction time and no timer is running. -/
def initState (t0 : Nat) : HandlerState :=
  { lastModified := t0, timerRunning := false }

/-- An event qualifies unless it is a directory event or its base name
starts with a dot — the filter at the top of `on_any_event`. -/
def qualifies (e : FSEvent) : Bool :=
  !e.isDirectory && !(startsWithDot (basename e.srcPath))

/-- `on_any_event`: non-qualifying events are dropped; a qualifying event
sets `last_modified` to the current time and ensures `timer_running`. -/
def onAnyEvent (s : HandlerState) (e : FSEvent) (now : Nat) : HandlerState :=
  if e.isDirectory || startsWithDot (basename e.srcPath) then s
  else { lastModified := now, timerRunning := true }

/-- Whether handling event `e` in state `s` enters `_start_timer`
(i.e. begins a new debounce wait): only when the event qualifies and no
timer is already running. -/
def startsWait (s : HandlerState) (e : FSEvent) : Bool :=
  qualifies e && !s.timerRunning

/-- One check of the `_start_timer` polling loop at time `now`: if a timer
is running and the time since the last change has reached the debounce
interval, the commit action fires and the timer is retired. Returns the
new state and whether a firing occurred. -/
def pollFire (d : Nat) (s : HandlerState) (now : Nat) : HandlerState × Bool :=
  if s.timerRunning && decide (d ≤ now - s.lastModified) then
    ({ s with timerRunning := false }, true)
  else (s, false)

/-- One whole tick of the system at time `now`: first the (optional)
filesystem event of this tick is handled by `on_any_event`, then the
polling loop checks the elapsed quiescence. -/
def tick (d : Nat) (s : HandlerState) (ev : Option FSEvent) (now : Nat) :
    HandlerState × Bool :=
  let s1 := match ev with
    | none => s
    | some e => onAnyEvent s e now
  pollFire d s1 now

/-- The handler state after `n` ticks, starting from state `s` at time
`t0`, under the event schedule `events`. -/
def runFrom (d : Nat) (events : Nat → Option FSEvent) (s : HandlerState)
    (t0 : Nat) : Nat → HandlerState
  | 0 => s
  | n + 1 => (tick d (runFrom d events s t0 n) (events (t0 + n)) (t0 + n)).1

/-- Whether the commit action fires during the tick at time `t0 + n`. -/
def firedFrom (d : Nat) (events : Nat → Option FSEvent) (s : HandlerState)
    (t0 : Nat) (n : Nat) : Bool :=
  (tick d (runFrom d events s t0 n) (events (t0 + n)) (t0 + n)).2

/-- `subprocess.run([... auto_commit.py, "--commit-only"], check=True)`
inside `_trigger_commit`: raises (models as `Except.error`) exactly on a
non-zero exit code of the commit script. -/
def checkedRun (exitCode : Int) : Except Int Unit :=
  if exitCode = 0 then Except.ok () else Except.error exitCode

/-- `_trigger_commit`: runs the commit script and catches
`CalledProcessError`, returning a log line in either case — no exception
escapes to the `_start_timer` loop. -/
def triggerCommitLog (exitCode : Int) : String :=
  match checkedRun exitCode with
  | Except.ok _ => "Auto commit completed successfully"
  | Except.error e => "Auto commit failed: " ++ toString e

/-! ## Concrete fixtures used by witness theorems -/

/-- A qualifying file event. -/
def wEvent : FSEvent := ⟨"docs/readme.md", "modified", false⟩

/-- A hidden-file event (base name starts with a dot). -/
def hiddenEvent : FSEvent := ⟨"docs/.hidden.md", "modified", false⟩

/-- A schedule with a qualifying event at every tick. -/
def wEventsA : Nat → Option FSEvent := fun _ => some wEvent

/-- A schedule with qualifying events at ticks 0..3 and nothing after. -/
def wEventsB : Nat → Option FSEvent := fun t => if t ≤ 3 then some wEvent else none

/-- The empty event schedule. -/
def noEvents : Nat → Option FSEvent := fun _ => none

/-- An environment for a clean repository: every command succeeds, the
status output is empty. -/
def envClean : Env := fun _ => ⟨0, "", ""⟩

/-- An environment for a dirty repository in which every git command
succeeds. -/
def envDirty : Env := fun c =>
  if c = statusCmd then ⟨0, " M docs/a.md\n", ""⟩ else ⟨0, "ok", ""⟩

/-- A dirty repository in which `git add --all` fails. -/
def envStageFail : Env := fun c =>
  if c = statusCmd then ⟨0, " M docs/a.md", ""⟩
  else if c = stageCmd then ⟨1, "", "boom"⟩
  else ⟨0, "ok", ""⟩

/-- An environment in which the status command itself fails. -/
def envStatusFail : Env := fun c =>
  if c = statusCmd then ⟨128, "", "fatal: not a git repository"⟩ else ⟨0, "ok", ""⟩

/-! ## Helper lemmas: auto_commit.py -/

lemma run_command_ok (env : Env) (c : String) (h : (env c).exitCode = 0) :
    run_command env c = ⟨some (pyStrip (env c).stdout), [c], []⟩ := by
  simp [run_command, subprocessRun, h]

lemma run_command_err (env : Env) (c : String) (h : ¬ (env c).exitCode = 0) :
    run_command env c =
      ⟨none, [c], ["Command failed: " ++ c, "Error: " ++ (env c).stderr]⟩ := by
  simp [run_command, subprocessRun, h]

lemma cc_stage_fail (env : Env) (ts : String) (h : ¬ (env stageCmd).exitCode = 0) :
    commit_changes env none ts =
      ⟨false, [stageCmd], ["Command failed: " ++ stageCmd, "Error: " ++ (env stageCmd).stderr]⟩ := by
  simp [commit_changes, run_command_err env stageCmd h]

lemma cc_commit_fail (env : Env) (ts : String) (h0 : (env stageCmd).exitCode = 0)
    (h1 : ¬ (env (commitCmdFor (defaultMessage ts))).exitCode = 0) :
    commit_changes env none ts =
      ⟨false, [stageCmd, commitCmdFor (defaultMessage ts)],
        ["Command failed: " ++ commitCmdFor (defaultMessage ts),
          "Error: " ++ (env (commitCmdFor (defaultMessage ts))).stderr]⟩ := by
  simp [commit_changes, run_command_ok env stageCmd h0,
    run_command_err env (commitCmdFor (defaultMessage ts)) h1]

lemma cc_ok (env : Env) (ts : String) (h0 : (env stageCmd).exitCode = 0)
    (h1 : (env (commitCmdFor (defaultMessage ts))).exitCode = 0) :
    commit_changes env none ts =
      ⟨true, [stageCmd, commitCmdFor (defaultMessage ts)],
        ["Changes committed: " ++ defaultMessage ts]⟩ := by
  simp [commit_changes, run_command_ok env stageCmd h0,
    run_command_ok env (commitCmdFor (defaultMessage ts)) h1]

lemma push_ok (env : Env) (h : (env pushCmd).exitCode = 0) :
    push_changes env = ⟨true, [pushCmd], ["Changes pushed to remote repository"]⟩ := by
  simp [push_changes, run_command_ok env pushCmd h]

lemma push_err (env : Env) (h : ¬ (env pushCmd).exitCode = 0) :
    push_changes env =
      ⟨false, [pushCmd],
        ["Command failed: " ++ pushCmd, "Error: " ++ (env pushCmd).stderr,
          "Failed to push changes"]⟩ := by
  simp [push_changes, run_command_err env pushCmd h]

lemma push_ran (env : Env) : (push_changes env).ran = [pushCmd] := by
  by_cases h : (env pushCmd).exitCode = 0
  · simp [push_ok env h]
  · simp [push_err env h]

lemma co_status_err (env : Env) (ts : String) (h : ¬ (env statusCmd).exitCode = 0) :
    commitOnly env ts =
      ⟨(), [statusCmd],
        ["Command failed: " ++ statusCmd, "Error: " ++ (env statusCmd).stderr,
          "No changes to commit"]⟩ := by
  simp [commitOnly, get_git_status, run_command_err env statusCmd h, truthy]

lemma co_clean (env : Env) (ts : String) (h0 : (env statusCmd).exitCode = 0)
    (h1 : pyStrip (env statusCmd).stdout = "") :
    commitOnly env ts = ⟨(), [statusCmd], ["No changes to commit"]⟩ := by
  simp [commitOnly, get_git_status, run_command_ok env statusCmd h0, h1, truthy]

lemma co_stage_fail (env : Env) (ts : String) (h0 : (env statusCmd).exitCode = 0)
    (h1 : ¬ pyStrip (env statusCmd).stdout = "") (h2 : ¬ (env stageCmd).exitCode = 0) :
    commitOnly env ts =
      ⟨(), [statusCmd, stageCmd],
        ["Command failed: " ++ stageCmd, "Error: " ++ (env stageCmd).stderr,
          "Failed to commit changes"]⟩ := by
  simp [commitOnly, get_git_status, run_command_ok env statusCmd h0, truthy, h1,
    cc_stage_fail env ts h2]

lemma co_commit_fail (env : Env) (ts : String) (h0 : (env statusCmd).exitCode = 0)
    (h1 : ¬ pyStrip (env statusCmd).stdout = "") (h2 : (env stageCmd).exitCode = 0)
    (h3 : ¬ (env (commitCmdFor (defaultMessage ts))).exitCode = 0) :
    commitOnly env ts =
      ⟨(), [statusCmd, stageCmd, commitCmdFor (defaultMessage ts)],
        ["Command failed: " ++ commitCmdFor (defaultMessage ts),
          "Error: " ++ (env (commitCmdFor (defaultMessage ts))).stderr,
          "Failed to commit changes"]⟩ := by
  simp [commitOnly, get_git_status, run_command_ok env statusCmd h0, truthy, h1,
    cc_commit_fail env ts h2 h3]

lemma co_success (env : Env) (ts : String) (h0 : (env statusCmd).exitCode = 0)
    (h1 : ¬ pyStrip (env statusCmd).stdout = "") (h2 : (env stageCmd).exitCode = 0)
    (h3 : (env (commitCmdFor (defaultMessage ts))).exitCode = 0) :
    commitOnly env ts =
      ⟨(), [statusCmd, stageCmd, commitCmdFor (defaultMessage ts), pushCmd],
        ["Changes committed: " ++ defaultMessage ts] ++ (push_changes env).logs⟩ := by
  simp [commitOnly, get_git_status, run_command_ok env statusCmd h0, truthy, h1,
    cc_ok env ts h2 h3, push_ran env]

lemma commitCmdFor_ne_pushCmd (m : String) : ¬ commitCmdFor m = pushCmd := by
  intro h
  have h2 := congrArg String.length h
  have e1 : ("git commit -m \"" : String).length = 15 := rfl
  have e2 : ("\"" : String).length = 1 := rfl
  have e3 : ("git push" : String).length = 8 := rfl
  simp [commitCmdFor, pushCmd, String.length_append, e1, e2, e3] at h2
  omega

lemma truthy_status_iff (env : Env) :
    truthy (get_git_status env).val = true ↔
      ((env statusCmd).exitCode = 0 ∧ ¬ pyStrip (env statusCmd).stdout = "") := by
  by_cases h : (env statusCmd).exitCode = 0
  · simp [get_git_status, run_command_ok env statusCmd h, truthy, h]
  · simp [get_git_status, run_command_err env statusCmd h, truthy, h]

/-! ## Helper lemmas: watch_changes.py -/

lemma qualifies_split (e : FSEvent) (hq : qualifies e = true) :
    e.isDirectory = false ∧ startsWithDot (basename e.srcPath) = false := by
  unfold qualifies at hq
  simp only [Bool.and_eq_true, Bool.not_eq_true'] at hq
  exact hq

lemma onAnyEvent_qual (s : HandlerState) (e : FSEvent) (now : Nat)
    (hq : qualifies e = true) :
    onAnyEvent s e now = { lastModified := now, timerRunning := true } := by
  obtain ⟨h1, h2⟩ := qualifies_split e hq
  simp [onAnyEvent, h1, h2]

lemma tick_qual (d : Nat) (s : HandlerState) (e : FSEvent) (now : Nat)
    (hq : qualifies e = true) (hd : 0 < d) :
    tick d s (some e) now = ({ lastModified := now, timerRunning := true }, false) := by
  simp [tick, onAnyEvent_qual s e now hq, pollFire]
  omega

lemma tick_none_idle (d : Nat) (s : HandlerState) (now : Nat)
    (h : s.timerRunning = false) :
    tick d s none now = (s, false) := by
  simp [tick, pollFire, h]

lemma tick_none_early (d : Nat) (s : HandlerState) (now : Nat)
    (h : s.timerRunning = true) (h2 : now - s.lastModified < d) :
    tick d s none now = (s, false) := by
  have hdec : decide (d ≤ now - s.lastModified) = false := by
    simp
    omega
  simp [tick, pollFire, h, hdec]

lemma tick_none_fire (d : Nat) (s : HandlerState) (now : Nat)
    (h : s.timerRunning = true) (h2 : d ≤ now - s.lastModified) :
    tick d s none now = ({ s with timerRunning := false }, true) := by
  simp [tick, pollFire, h, h2]

/-- The time of the most recent tick `≤ n` marked by `Q` (defaulting to 0). -/
def lastQ (Q : Nat → Bool) : Nat → Nat
  | 0 => 0
  | n + 1 => if Q (n + 1) then n + 1 else lastQ Q n

lemma lastQ_le (Q : Nat → Bool) : ∀ n, lastQ Q n ≤ n := by
  intro n
  induction n with
  | zero => simp [lastQ]
  | succ n ih =>
    unfold lastQ
    split
    · exact Nat.le_refl _
    · omega

lemma lastQ_marked (Q : Nat → Bool) (h0 : Q 0 = true) : ∀ n, Q (lastQ Q n) = true := by
  intro n
  induction n with
  | zero => simpa [lastQ] using h0
  | succ n ih =>
    unfold lastQ
    split
    · assumption
    · exact ih

lemma lastQ_max (Q : Nat → Bool) : ∀ n q, q ≤ n → Q q = true → q ≤ lastQ Q n := by
  intro n
  induction n with
  | zero =>
    intro q hq _
    omega
  | succ n ih =>
    intro q hq hQ
    unfold lastQ
    split
    · omega
    · rcases Nat.lt_or_ge q (n + 1) with h | h
      · exact ih q (by omega) hQ
      · have : q = n + 1 := by omega
        subst this
        simp_all

/-- Every event of the schedule passes the `on_any_event` filter. -/
def allQual (events : Nat → Option FSEvent) : Prop :=
  ∀ t e, events t = some e → qualifies e = true

/-- A burst that never lets the tree rest: an event at tick 0, and after
every event another event strictly less than `d` ticks later. -/
def denseBurst (d : Nat) (events : Nat → Option FSEvent) : Prop :=
  (events 0).isSome = true ∧
    ∀ t, (events t).isSome = true → ∃ t', t < t' ∧ t' < t + d ∧ (events t').isSome = true

lemma lastQ_succ (Q : Nat → Bool) (n : Nat) :
    lastQ Q (n + 1) = if Q (n + 1) then n + 1 else lastQ Q n := rfl

lemma lastQ_gap (Q : Nat → Bool) (d : Nat) (h0 : Q 0 = true)
    (hb : ∀ t, Q t = true → ∃ t', t < t' ∧ t' < t + d ∧ Q t' = true) :
    ∀ n, n < lastQ Q n + d := by
  intro n
  obtain ⟨t', h1, h2, h3⟩ := hb (lastQ Q n) (lastQ_marked Q h0 n)
  by_cases h : t' ≤ n
  · have := lastQ_max Q n t' h h3
    omega
  · omega

lemma burst_invariant (d : Nat) (hd : 0 < d) (events : Nat → Option FSEvent)
    (hq : allQual events) (h0 : (events 0).isSome = true)
    (hb : ∀ t, (events t).isSome = true →
      ∃ t', t < t' ∧ t' < t + d ∧ (events t').isSome = true) :
    ∀ n, runFrom d events (initState 0) 0 (n + 1) =
        { lastModified := lastQ (fun t => (events t).isSome) n, timerRunning := true } ∧
      firedFrom d events (initState 0) 0 n = false := by
  have hQ0 : (fun t => (events t).isSome) 0 = true := h0
  intro n
  induction n with
  | zero =>
    obtain ⟨e, he⟩ := Option.isSome_iff_exists.mp h0
    constructor
    · show (tick d (initState 0) (events (0 + 0)) (0 + 0)).1 = _
      simp only [Nat.add_zero, he, tick_qual d (initState 0) e 0 (hq 0 e he) hd]
      simp [lastQ]
    · show (tick d (initState 0) (events (0 + 0)) (0 + 0)).2 = false
      simp only [Nat.add_zero, he, tick_qual d (initState 0) e 0 (hq 0 e he) hd]
  | succ n ih =>
    have hst : runFrom d events (initState 0) 0 (n + 1) =
        { lastModified := lastQ (fun t => (events t).isSome) n, timerRunning := true } := ih.1
    cases hev : events (n + 1) with
    | some e =>
      have hqe := hq (n + 1) e hev
      constructor
      · show (tick d (runFrom d events (initState 0) 0 (n + 1)) (events (0 + (n + 1))) (0 + (n + 1))).1 = _
        simp only [Nat.zero_add, hev, hst, tick_qual d _ e (n + 1) hqe hd]
        have : lastQ (fun t => (events t).isSome) (n + 1) = n + 1 := by
          rw [lastQ_succ]
          simp [hev]
        rw [this]
      · show (tick d (runFrom d events (initState 0) 0 (n + 1)) (events (0 + (n + 1))) (0 + (n + 1))).2 = false
        simp only [Nat.zero_add, hev, hst, tick_qual d _ e (n + 1) hqe hd]
    | none =>
      have hQn : (fun t => (events t).isSome) (n + 1) = false := by simp [hev]
      have hsame : lastQ (fun t => (events t).isSome) (n + 1) =
          lastQ (fun t => (events t).isSome) n := by
        rw [lastQ_succ]
        simp [hev]
      have hgap := lastQ_gap (fun t => (events t).isSome) d hQ0 hb (n + 1)
      have hlt : (n + 1) - lastQ (fun t => (events t).isSome) n < d := by
        rw [← hsame]
        have := lastQ_le (fun t => (events t).isSome) (n + 1)
        omega
      have htick := tick_none_early d
        { lastModified := lastQ (fun t => (events t).isSome) n, timerRunning := true }
        (n + 1) rfl hlt
      constructor
      · show (tick d (runFrom d events (initState 0) 0 (n + 1)) (events (0 + (n + 1))) (0 + (n + 1))).1 = _
        simp only [Nat.zero_add, hev, hst, htick]
        rw [hsame]
      · show (tick d (runFrom d events (initState 0) 0 (n + 1)) (events (0 + (n + 1))) (0 + (n + 1))).2 = false
        simp only [Nat.zero_add, hev, hst, htick]

lemma quiet_stays (d m t0 : Nat) (events : Nat → Option FSEvent)
    (hev : ∀ t, t0 ≤ t → events t = none) (hm : m ≤ t0) :
    ∀ k, t0 + k ≤ m + d →
      runFrom d events { lastModified := m, timerRunning := true } t0 k =
        { lastModified := m, timerRunning := true } := by
  intro k
  induction k with
  | zero => intro _; rfl
  | succ k ih =>
    intro h
    have hk : t0 + k ≤ m + d := by omega
    show (tick d (runFrom d events { lastModified := m, timerRunning := true } t0 k)
      (events (t0 + k)) (t0 + k)).1 = _
    rw [ih hk, hev (t0 + k) (by omega),
      tick_none_early d { lastModified := m, timerRunning := true } (t0 + k) rfl (by simp; omega)]

lemma afterlast_stays (d : Nat) (hd : 0 < d) (events : Nat → Option FSEvent)
    (L : Nat) (e0 : FSEvent) (heL : events L = some e0) (hq0 : qualifies e0 = true)
    (hafter : ∀ t, L < t → events t = none) (s : HandlerState) :
    ∀ k, k < d →
      runFrom d events s 0 (L + 1 + k) = { lastModified := L, timerRunning := true } := by
  intro k
  induction k with
  | zero =>
    intro _
    show (tick d (runFrom d events s 0 L) (events (0 + L)) (0 + L)).1 = _
    rw [Nat.zero_add, heL, tick_qual d _ e0 L hq0 hd]
  | succ k ih =>
    intro h
    have hk : k < d := by omega
    have : L + 1 + (k + 1) = (L + 1 + k) + 1 := by omega
    rw [this]
    show (tick d (runFrom d events s 0 (L + 1 + k)) (events (0 + (L + 1 + k))) (0 + (L + 1 + k))).1 = _
    rw [Nat.zero_add, ih hk, hafter (L + 1 + k) (by omega),
      tick_none_early d { lastModified := L, timerRunning := true } (L + 1 + k) rfl (by simp; omega)]

lemma afterfire_idle (d : Nat) (hd : 0 < d) (events : Nat → Option FSEvent)
    (L : Nat) (e0 : FSEvent) (heL : events L = some e0) (hq0 : qualifies e0 = true)
    (hafter : ∀ t, L < t → events t = none) (s : HandlerState) :
    ∀ k, runFrom d events s 0 (L + d + 1 + k) = { lastModified := L, timerRunning := false } := by
  intro k
  induction k with
  | zero =>
    show (tick d (runFrom d events s 0 (L + d)) (events (0 + (L + d))) (0 + (L + d))).1 = _
    have hst : runFrom d events s 0 (L + d) = { lastModified := L, timerRunning := true } := by
      have : L + d = L + 1 + (d - 1) := by omega
      rw [this]
      exact afterlast_stays d hd events L e0 heL hq0 hafter s (d - 1) (by omega)
    rw [Nat.zero_add, hst, hafter (L + d) (by omega),
      tick_none_fire d { lastModified := L, timerRunning := true } (L + d) rfl (by simp)]
  | succ k ih =>
    have : L + d + 1 + (k + 1) = (L + d + 1 + k) + 1 := by omega
    rw [this]
    show (tick d (runFrom d events s 0 (L + d + 1 + k)) (events (0 + (L + d + 1 + k))) (0 + (L + d + 1 + k))).1 = _
    rw [Nat.zero_add, ih, hafter (L + d + 1 + k) (by omega),
      tick_none_idle d { lastModified := L, timerRunning := false } (L + d + 1 + k) rfl]

lemma wEventsA_allQual : allQual wEventsA := by
  intro t e he
  simp only [wEventsA] at he
  simp at he
  subst he
  decide

lemma wEventsA_dense : denseBurst 2 wEventsA :=
  ⟨rfl, fun t _ => ⟨t + 1, by omega, by omega, rfl⟩⟩

lemma wEventsB_allQual : allQual wEventsB := by
  intro t e he
  unfold wEventsB at he
  split at he
  · simp at he
    subst he
    decide
  · cases he

lemma wEventsB_after : ∀ t, 3 < t → wEventsB t = none := by
  intro t ht
  unfold wEventsB
  rw [if_neg (by omega)]

/-! ## Claim theorems -/

/-- Claim C1: while the tracker is armed (`timer_running = true`), handling
a qualifying event only sets `last_modified` to the current time and leaves
the timer armed — it never enters `_start_timer` a second time; a wait is
started only on a qualifying event arriving with the timer not running. -/
theorem at_most_one_wait_invariant :
    (∀ (s : HandlerState) (e : FSEvent) (now : Nat),
        s.timerRunning = true → qualifies e = true →
        onAnyEvent s e now = { lastModified := now, timerRunning := true } ∧
          startsWait s e = false)
  ∧ (∀ (s : HandlerState) (e : FSEvent),
        startsWait s e = true → qualifies e = true ∧ s.timerRunning = false) := by
  constructor
  · intro s e now ht hq
    refine ⟨onAnyEvent_qual s e now hq, ?_⟩
    simp [startsWait, ht]
  · intro s e h
    simp only [startsWait, Bool.and_eq_true, Bool.not_eq_true'] at h
    exact h

theorem at_most_one_wait_invariant_witness :
    onAnyEvent { lastModified := 3, timerRunning := true } wEvent 7 =
      { lastModified := 7, timerRunning := true } ∧
    startsWait { lastModified := 3, timerRunning := true } wEvent = false :=
  at_most_one_wait_invariant.1 { lastModified := 3, timerRunning := true } wEvent 7 rfl
    (by decide)

/-- Claim C5: an event on a directory, or whose base name starts with a
dot, leaves the handler state untouched, starts no wait, and does not
change what the tick does; every qualifying event sets `last_modified` to
the current time and arms the timer. -/
theorem hidden_and_directory_events_ignored :
    (∀ (s : HandlerState) (e : FSEvent) (now : Nat),
        e.isDirectory = true ∨ startsWithDot (basename e.srcPath) = true →
        onAnyEvent s e now = s ∧ startsWait s e = false ∧
          ∀ d : Nat, tick d s (some e) now = tick d s none now)
  ∧ (∀ (s : HandlerState) (e : FSEvent) (now : Nat),
        qualifies e = true →
        (onAnyEvent s e now).lastModified = now ∧
          (onAnyEvent s e now).timerRunning = true) := by
  constructor
  · intro s e now h
    have hcond : (e.isDirectory || startsWithDot (basename e.srcPath)) = true := by
      rcases h with h | h <;> simp [h]
    have hq : qualifies e = false := by
      unfold qualifies
      rcases h with h | h <;> simp [h]
    refine ⟨?_, ?_, ?_⟩
    · simp [onAnyEvent, hcond]
    · simp [startsWait, hq]
    · intro d
      simp [tick, onAnyEvent, hcond]
  · intro s e now hq
    rw [onAnyEvent_qual s e now hq]
    exact ⟨rfl, rfl⟩

theorem hidden_and_directory_events_ignored_witness :
    onAnyEvent { lastModified := 3, timerRunning := true } hiddenEvent 7 =
      { lastModified := 3, timerRunning := true } ∧
    startsWait { lastModified := 3, timerRunning := true } hiddenEvent = false ∧
    tick 5 { lastModified := 3, timerRunning := true } (some hiddenEvent) 7 =
      tick 5 { lastModified := 3, timerRunning := true } none 7 ∧
    (onAnyEvent { lastModified := 3, timerRunning := true } wEvent 9).lastModified = 9 :=
  have h1 := hidden_and_directory_events_ignored.1 { lastModified := 3, timerRunning := true }
    hiddenEvent 7 (Or.inr (by decide))
  ⟨h1.1, h1.2.1, h1.2.2 5,
    (hidden_and_directory_events_ignored.2 { lastModified := 3, timerRunning := true }
      wEvent 9 (by decide)).1⟩

/-- Claim C8: once the elapsed quiescence reaches the debounce interval the
timer fires and is retired (back to Idle) whatever the commit script's exit
code is; `_trigger_commit` catches the subprocess error and returns a log
line in both cases, and from the retired state any qualifying event starts
a new wait. -/
theorem fire_returns_to_idle (d : Nat) (s : HandlerState) (now : Nat) (ec : Int)
    (ht : s.timerRunning = true) (hel : d ≤ now - s.lastModified) :
    pollFire d s now = ({ s with timerRunning := false }, true) ∧
    (triggerCommitLog ec = "Auto commit completed successfully" ∨
      (¬ ec = 0 ∧ triggerCommitLog ec = "Auto commit failed: " ++ toString ec)) ∧
    (∀ e : FSEvent, qualifies e = true →
      startsWait { s with timerRunning := false } e = true) := by
  refine ⟨?_, ?_, ?_⟩
  · simp [pollFire, ht, hel]
  · by_cases hec : ec = 0
    · left
      simp [triggerCommitLog, checkedRun, hec]
    · right
      exact ⟨hec, by simp [triggerCommitLog, checkedRun, hec]⟩
  · intro e he
    simp [startsWait, he]

theorem fire_returns_to_idle_witness :
    pollFire 5 { lastModified := 0, timerRunning := true } 9 =
      ({ lastModified := 0, timerRunning := false }, true) ∧
    (triggerCommitLog 2 = "Auto commit completed successfully" ∨
      (¬ (2 : Int) = 0 ∧ triggerCommitLog 2 = "Auto commit failed: " ++ toString (2 : Int))) ∧
    startsWait { lastModified := 0, timerRunning := false } wEvent = true :=
  have h := fire_returns_to_idle 5 { lastModified := 0, timerRunning := true } 9 2 rfl
    (by decide)
  ⟨h.1, h.2.1, h.2.2 wEvent (by decide)⟩

/-- Claim C7: from a Waiting state with `last_modified = m` and no further
qualifying events, each polling tick before `m + d` leaves the state
Waiting and fires nothing; the commit action fires exactly at time `m + d`
and the state returns to Idle. -/
theorem waiting_fires_at_deadline (d m t0 : Nat) (events : Nat → Option FSEvent)
    (hm : m ≤ t0) (ht : t0 ≤ m + d) (hev : ∀ t, t0 ≤ t → events t = none) :
    (∀ k, t0 + k < m + d →
        runFrom d events { lastModified := m, timerRunning := true } t0 k =
          { lastModified := m, timerRunning := true } ∧
        firedFrom d events { lastModified := m, timerRunning := true } t0 k = false)
  ∧ firedFrom d events { lastModified := m, timerRunning := true } t0 (m + d - t0) = true
  ∧ runFrom d events { lastModified := m, timerRunning := true } t0 (m + d - t0 + 1) =
      { lastModified := m, timerRunning := false } := by
  refine ⟨?_, ?_, ?_⟩
  · intro k hk
    have h1 := quiet_stays d m t0 events hev hm k (by omega)
    refine ⟨h1, ?_⟩
    unfold firedFrom
    rw [h1, hev (t0 + k) (by omega),
      tick_none_early d _ (t0 + k) rfl (by simp; omega)]
  · unfold firedFrom
    have h1 := quiet_stays d m t0 events hev hm (m + d - t0) (by omega)
    rw [h1, hev (t0 + (m + d - t0)) (by omega),
      tick_none_fire d _ (t0 + (m + d - t0)) rfl (by simp; omega)]
  · show (tick d (runFrom d events { lastModified := m, timerRunning := true } t0 (m + d - t0))
      (events (t0 + (m + d - t0))) (t0 + (m + d - t0))).1 = _
    have h1 := quiet_stays d m t0 events hev hm (m + d - t0) (by omega)
    rw [h1, hev (t0 + (m + d - t0)) (by omega),
      tick_none_fire d _ (t0 + (m + d - t0)) rfl (by simp; omega)]

theorem waiting_fires_at_deadline_witness :
    firedFrom 5 noEvents { lastModified := 0, timerRunning := true } 2 3 = true :=
  (waiting_fires_at_deadline 5 0 2 noEvents (by omega) (by omega) (fun t _ => rfl)).2.1

/-- Claim C6: under a stream of qualifying events in which each event is
followed by another one strictly less than `d` ticks later, the commit
action never fires; once the events stop at tick `L`, the action fires at
tick `L + d` and at no other tick from `L` on. -/
theorem burst_postpones_until_gap (d : Nat) (hd : 0 < d) :
    (∀ events : Nat → Option FSEvent, allQual events → denseBurst d events →
        ∀ n, firedFrom d events (initState 0) 0 n = false)
  ∧ (∀ (events : Nat → Option FSEvent) (L : Nat) (s : HandlerState) (e0 : FSEvent),
        allQual events → events L = some e0 → (∀ t, L < t → events t = none) →
        firedFrom d events s 0 (L + d) = true ∧
          ∀ n, L ≤ n → ¬ n = L + d → firedFrom d events s 0 n = false) := by
  constructor
  · intro events hq hbu n
    exact (burst_invariant d hd events hq hbu.1 hbu.2 n).2
  · intro events L s e0 hq heL hafter
    have hq0 : qualifies e0 = true := hq L e0 heL
    have hst : runFrom d events s 0 (L + d) = { lastModified := L, timerRunning := true } := by
      have hL : L + d = L + 1 + (d - 1) := by omega
      rw [hL]
      exact afterlast_stays d hd events L e0 heL hq0 hafter s (d - 1) (by omega)
    constructor
    · unfold firedFrom
      rw [Nat.zero_add, hst, hafter (L + d) (by omega),
        tick_none_fire d _ (L + d) rfl (by simp)]
    · intro n hLn hne
      rcases Nat.lt_or_ge n (L + 1) with h | h
      · have hnL : n = L := by omega
        subst hnL
        unfold firedFrom
        rw [Nat.zero_add, heL, tick_qual d _ e0 n hq0 hd]
      · rcases Nat.lt_or_ge n (L + d) with h2 | h2
        · have hk : n = L + 1 + (n - L - 1) := by omega
          have hst2 := afterlast_stays d hd events L e0 heL hq0 hafter s (n - L - 1) (by omega)
          rw [← hk] at hst2
          unfold firedFrom
          rw [Nat.zero_add, hst2, hafter n (by omega),
            tick_none_early d _ n rfl (by simp; omega)]
        · have hk : n = L + d + 1 + (n - L - d - 1) := by omega
          have hst2 := afterfire_idle d hd events L e0 heL hq0 hafter s (n - L - d - 1)
          rw [← hk] at hst2
          unfold firedFrom
          rw [Nat.zero_add, hst2, hafter n (by omega),
            tick_none_idle d _ n rfl]

theorem burst_postpones_until_gap_witness :
    firedFrom 2 wEventsA (initState 0) 0 7 = false ∧
    firedFrom 2 wEventsB (initState 0) 0 5 = true :=
  ⟨(burst_postpones_until_gap 2 (by omega)).1 wEventsA wEventsA_allQual wEventsA_dense 7,
    ((burst_postpones_until_gap 2 (by omega)).2 wEventsB 3 (initState 0) wEvent
      wEventsB_allQual rfl wEventsB_after).1⟩

/-- Claim C2: when the status check succeeds with empty output, the
one-shot `--commit-only` run invokes only the status command — no stage,
commit or push — and any repository semantics under which the status query
is read-only leaves the repository state unchanged. -/
theorem clean_status_skips_all (env : Env) (ts : String)
    (hexit : (env statusCmd).exitCode = 0)
    (hout : pyStrip (env statusCmd).stdout = "") :
    (commitOnly env ts).ran = [statusCmd] ∧
    (commitOnly env ts).logs = ["No changes to commit"] ∧
    (∀ (R : Type) (step : String → R → R),
        (∀ r : R, step statusCmd r = r) →
        ∀ repo : R, execTrace step repo (commitOnly env ts).ran = repo) := by
  have h := co_clean env ts hexit hout
  refine ⟨by rw [h], by rw [h], ?_⟩
  intro R step hstep repo
  rw [h]
  simp [execTrace, hstep]

theorem clean_status_skips_all_witness :
    (commitOnly envClean "2025-01-01 00:00:00").ran = [statusCmd] ∧
    execTrace (fun _ r => r) (0 : Nat) (commitOnly envClean "2025-01-01 00:00:00").ran = 0 :=
  have h := clean_status_skips_all envClean "2025-01-01 00:00:00" rfl (by decide)
  ⟨h.1, h.2.2 Nat (fun _ r => r) (fun _ => rfl) 0⟩

/-- Claim C3: a `--commit-only` run issues the push command exactly once
when staging and committing both succeed (whatever the push outcome, so no
retry), never issues it when `commit_changes` fails or the status check is
falsy, and issues no command beyond status/stage/commit/push (so no
rollback command exists). -/
theorem push_iff_commit_success (env : Env) (ts : String) :
    (truthy (get_git_status env).val = true → (commit_changes env none ts).val = true →
        (commitOnly env ts).ran =
          [statusCmd, stageCmd, commitCmdFor (defaultMessage ts), pushCmd] ∧
        List.count pushCmd (commitOnly env ts).ran = 1)
  ∧ ((commit_changes env none ts).val = false → ¬ pushCmd ∈ (commitOnly env ts).ran)
  ∧ (truthy (get_git_status env).val = false → ¬ pushCmd ∈ (commitOnly env ts).ran)
  ∧ (∀ c : String, c ∈ (commitOnly env ts).ran →
        c = statusCmd ∨ c = stageCmd ∨ c = commitCmdFor (defaultMessage ts) ∨ c = pushCmd) := by
  by_cases h0 : (env statusCmd).exitCode = 0
  · by_cases h1 : pyStrip (env statusCmd).stdout = ""
    · have htr : truthy (get_git_status env).val = false := by
        cases hb : truthy (get_git_status env).val
        · rfl
        · exact absurd ((truthy_status_iff env).1 hb).2 (by simp [h1])
      refine ⟨?_, ?_, ?_, ?_⟩
      · intro hf
        rw [htr] at hf
        exact absurd hf (by simp)
      · intro _
        rw [co_clean env ts h0 h1]
        decide
      · intro _
        rw [co_clean env ts h0 h1]
        decide
      · intro c hc
        rw [co_clean env ts h0 h1] at hc
        simp at hc
        exact Or.inl hc
    · have htr : truthy (get_git_status env).val = true := (truthy_status_iff env).2 ⟨h0, h1⟩
      by_cases h2 : (env stageCmd).exitCode = 0
      · by_cases h3 : (env (commitCmdFor (defaultMessage ts))).exitCode = 0
        · refine ⟨?_, ?_, ?_, ?_⟩
          · intro _ _
            have e1 : (statusCmd == pushCmd) = false := by decide
            have e2 : (stageCmd == pushCmd) = false := by decide
            have e3 : (commitCmdFor (defaultMessage ts) == pushCmd) = false := by
              rw [beq_eq_false_iff_ne]
              exact commitCmdFor_ne_pushCmd _
            refine ⟨by rw [co_success env ts h0 h1 h2 h3], ?_⟩
            rw [co_success env ts h0 h1 h2 h3]
            simp [List.count_cons, e1, e2, e3]
          · intro hcv
            rw [cc_ok env ts h2 h3] at hcv
            exact absurd hcv (by simp)
          · intro hf
            rw [htr] at hf
            exact absurd hf (by simp)
          · intro c hc
            rw [co_success env ts h0 h1 h2 h3] at hc
            simp at hc
            tauto
        · refine ⟨?_, ?_, ?_, ?_⟩
          · intro _ hcv
            rw [cc_commit_fail env ts h2 h3] at hcv
            exact absurd hcv (by simp)
          · intro _
            rw [co_commit_fail env ts h0 h1 h2 h3]
            intro hmem
            simp at hmem
            rcases hmem with h | h | h
            · exact absurd h (by decide)
            · exact absurd h (by decide)
            · exact commitCmdFor_ne_pushCmd _ h.symm
          · intro hf
            rw [htr] at hf
            exact absurd hf (by simp)
          · intro c hc
            rw [co_commit_fail env ts h0 h1 h2 h3] at hc
            simp at hc
            tauto
      · refine ⟨?_, ?_, ?_, ?_⟩
        · intro _ hcv
          rw [cc_stage_fail env ts h2] at hcv
          exact absurd hcv (by simp)
        · intro _
          rw [co_stage_fail env ts h0 h1 h2]
          show ¬ pushCmd ∈ [statusCmd, stageCmd]
          decide
        · intro hf
          rw [htr] at hf
          exact absurd hf (by simp)
        · intro c hc
          rw [co_stage_fail env ts h0 h1 h2] at hc
          simp at hc
          tauto
  · have htr : truthy (get_git_status env).val = false := by
      cases hb : truthy (get_git_status env).val
      · rfl
      · exact absurd ((truthy_status_iff env).1 hb).1 h0
    refine ⟨?_, ?_, ?_, ?_⟩
    · intro hf
      rw [htr] at hf
      exact absurd hf (by simp)
    · intro _
      rw [co_status_err env ts h0]
      show ¬ pushCmd ∈ [statusCmd]
      decide
    · intro _
      rw [co_status_err env ts h0]
      show ¬ pushCmd ∈ [statusCmd]
      decide
    · intro c hc
      rw [co_status_err env ts h0] at hc
      simp at hc
      exact Or.inl hc

theorem push_iff_commit_success_witness :
    List.count pushCmd (commitOnly envDirty "t").ran = 1 ∧
    ¬ pushCmd ∈ (commitOnly envStageFail "t").ran :=
  have hd := push_iff_commit_success envDirty "t"
  have hs := push_iff_commit_success envStageFail "t"
  ⟨(hd.1 (by decide) (by decide)).2, hs.2.1 (by decide)⟩

/-- Claim C4: `commit_changes` returns failure exactly when one of its two
`run_command` calls returns `None`, which happens exactly when the
underlying invocation exits non-zero; in each failure case the captured
error stream appears in the log and the pipeline never reaches the push
command. -/
theorem commit_failure_characterisation (env : Env) (ts : String) :
    ((commit_changes env none ts).val = false ↔
      ((run_command env stageCmd).val = none ∨
        (run_command env (commitCmdFor (defaultMessage ts))).val = none))
  ∧ (∀ c : String, (run_command env c).val = none ↔ ¬ (env c).exitCode = 0)
  ∧ ((run_command env stageCmd).val = none →
      ("Error: " ++ (env stageCmd).stderr) ∈ (commit_changes env none ts).logs)
  ∧ (¬ (run_command env stageCmd).val = none →
      (run_command env (commitCmdFor (defaultMessage ts))).val = none →
      ("Error: " ++ (env (commitCmdFor (defaultMessage ts))).stderr)
        ∈ (commit_changes env none ts).logs)
  ∧ ((commit_changes env none ts).val = false → ¬ pushCmd ∈ (commitOnly env ts).ran) := by
  have hrc : ∀ c : String, (run_command env c).val = none ↔ ¬ (env c).exitCode = 0 := by
    intro c
    by_cases h : (env c).exitCode = 0
    · simp [run_command_ok env c h, h]
    · simp [run_command_err env c h, h]
  refine ⟨?_, hrc, ?_, ?_, ?_⟩
  · by_cases h2 : (env stageCmd).exitCode = 0
    · by_cases h3 : (env (commitCmdFor (defaultMessage ts))).exitCode = 0
      · rw [cc_ok env ts h2 h3]
        simp [run_command_ok env stageCmd h2,
          run_command_ok env (commitCmdFor (defaultMessage ts)) h3]
      · rw [cc_commit_fail env ts h2 h3]
        simp [run_command_err env (commitCmdFor (defaultMessage ts)) h3]
    · rw [cc_stage_fail env ts h2]
      simp [run_command_err env stageCmd h2]
  · intro hst
    have h2 : ¬ (env stageCmd).exitCode = 0 := (hrc stageCmd).1 hst
    rw [cc_stage_fail env ts h2]
    simp
  · intro hst hcm
    have h2 : (env stageCmd).exitCode = 0 := by
      by_contra h
      exact hst ((hrc stageCmd).2 h)
    have h3 : ¬ (env (commitCmdFor (defaultMessage ts))).exitCode = 0 :=
      (hrc (commitCmdFor (defaultMessage ts))).1 hcm
    rw [cc_commit_fail env ts h2 h3]
    simp
  · intro hcv
    by_cases h0 : (env statusCmd).exitCode = 0
    · by_cases h1 : pyStrip (env statusCmd).stdout = ""
      · rw [co_clean env ts h0 h1]
        show ¬ pushCmd ∈ [statusCmd]
        decide
      · by_cases h2 : (env stageCmd).exitCode = 0
        · by_cases h3 : (env (commitCmdFor (defaultMessage ts))).exitCode = 0
          · rw [cc_ok env ts h2 h3] at hcv
            exact absurd hcv (by simp)
          · rw [co_commit_fail env ts h0 h1 h2 h3]
            intro hmem
            simp at hmem
            rcases hmem with h | h | h
            · exact absurd h (by decide)
            · exact absurd h (by decide)
            · exact commitCmdFor_ne_pushCmd _ h.symm
        · rw [co_stage_fail env ts h0 h1 h2]
          show ¬ pushCmd ∈ [statusCmd, stageCmd]
          decide
    · rw [co_status_err env ts h0]
      show ¬ pushCmd ∈ [statusCmd]
      decide

theorem commit_failure_characterisation_witness :
    (run_command envStageFail stageCmd).val = none ∧
    ("Error: " ++ (envStageFail stageCmd).stderr) ∈ (commit_changes envStageFail none "t").logs ∧
    ¬ pushCmd ∈ (commitOnly envStageFail "t").ran :=
  have h := commit_failure_characterisation envStageFail "t"
  have hs : (run_command envStageFail stageCmd).val = none := (h.2.1 stageCmd).2 (by decide)
  ⟨hs, h.2.2.1 hs, h.2.2.2.2 (h.1.2 (Or.inl hs))⟩

/-- Claim C9: when the status command itself fails, the `--commit-only`
branch takes the same path as a clean repository: only the status command
runs, the reported outcome is the same "No changes to commit" line (after
`run_command`'s generic failure logging), and neither a stage, commit nor
push is attempted. -/
theorem status_failure_treated_as_clean (env : Env) (ts : String)
    (hfail : ¬ (env statusCmd).exitCode = 0) :
    (commitOnly env ts).ran = [statusCmd]
  ∧ (commitOnly env ts).logs =
      ["Command failed: " ++ statusCmd, "Error: " ++ (env statusCmd).stderr,
        "No changes to commit"]
  ∧ (∀ (env2 : Env) (ts2 : String), (env2 statusCmd).exitCode = 0 →
        pyStrip (env2 statusCmd).stdout = "" →
        (commitOnly env2 ts2).ran = (commitOnly env ts).ran ∧
        (commitOnly env2 ts2).logs = ["No changes to commit"]) := by
  have h := co_status_err env ts hfail
  refine ⟨by rw [h], by rw [h], ?_⟩
  intro env2 ts2 h0 h1
  have h2 := co_clean env2 ts2 h0 h1
  exact ⟨by rw [h, h2], by rw [h2]⟩

theorem status_failure_treated_as_clean_witness :
    (commitOnly envStatusFail "t").ran = [statusCmd] ∧
    (commitOnly envClean "t").ran = (commitOnly envStatusFail "t").ran :=
  have h := status_failure_treated_as_clean envStatusFail "t" (by decide)
  ⟨h.1, (h.2.2 envClean "t" rfl (by decide)).1⟩

/-- Claim C10: two runs of the monitoring loop that differ only in the
watched path issue exactly the same command sequence; the path appears
only in the opening banner log line and every later log line coincides. -/
theorem path_influences_only_banner (p1 p2 : String) (interval : Nat)
    (envs : Nat → Env) (timestamps : Nat → String) (n : Nat) :
    (auto_commit_changes p1 interval envs timestamps n).ran =
      (auto_commit_changes p2 interval envs timestamps n).ran
  ∧ (auto_commit_changes p1 interval envs timestamps n).logs =
      ("Monitoring " ++ p1 ++ " for changes every " ++ toString interval ++ " seconds")
        :: (autoCommitLoop envs timestamps n).logs
  ∧ (auto_commit_changes p2 interval envs timestamps n).logs =
      ("Monitoring " ++ p2 ++ " for changes every " ++ toString interval ++ " seconds")
        :: (autoCommitLoop envs timestamps n).logs
  ∧ (auto_commit_changes p1 interval envs timestamps n).logs.tail =
      (auto_commit_changes p2 interval envs timestamps n).logs.tail :=
  ⟨rfl, rfl, rfl, rfl⟩
